import Mathlib

/-!
Verification of `logging_with_rotation.py` (function `create_rotating_logger` and
`get_existing_logger`) against its specification.

The script is a thin wrapper over the CPython 3.11 standard library `logging`
module; all rotation behaviour the spec describes lives in
`logging.handlers.TimedRotatingFileHandler` and `logging.StreamHandler`, which
the wrapper configures.  The definitions below are a shallow embedding of the
wrapper together with the parts of the standard library it invokes:

* `trfhInit`        — `TimedRotatingFileHandler.__init__` (when-parsing, suffix
                      and `extMatch` selection, initial `rolloverAt`),
* `computeRollover` — `TimedRotatingFileHandler.computeRollover`,
* `doRollover`      — `TimedRotatingFileHandler.doRollover`,
* `getFilesToDelete`— `TimedRotatingFileHandler.getFilesToDelete`,
* `trfhEmit`        — `BaseRotatingHandler.emit` / `FileHandler.emit` /
                      `StreamHandler.emit` (the try/except around the write,
                      routing failures to `Handler.handleError`),
* `getLogger`, `create_rotating_logger`, `get_existing_logger`, `loggerLog` —
  the process-wide logger registry, the wrapper itself, and `Logger.info`-style
  emission (`isEnabledFor` gate and `callHandlers`).

The local-time conversion `time.localtime` is a parameter (`lt`) of every
operation that uses it; the target directory is modelled as an association
list from file names to file contents (list of records).  Strings are modelled
as Lean `String`s; `time.strftime` is interpreted for the `%`-directives that
occur in the program.
-/

namespace LoggingRotation

/-- A broken-down local time as produced by `time.localtime`:
year, month, day of month, hour, minute, second, day of week
(`tm_wday`, Monday = 0) and the DST flag (`tm_isdst`). -/
structure TimeTuple where
  year : Nat
  month : Nat
  mday : Nat
  hour : Nat
  minute : Nat
  second : Nat
  wday : Nat
  isdst : Bool
deriving Repr, DecidableEq

/-- Zero-padded decimal rendering of `n` with width `w` (the field output of
`strftime` directives `%Y`/`%m`/`%d`/`%H`/`%M`/`%S`; on the target platform
`%Y` is unpadded below year 1000, but `time.localtime` of a nonnegative epoch
always yields a year in 1970..9999, where both agree). -/
def pad : Nat → Nat → List Char
  | 0, _ => []
  | w + 1, n => Nat.digitChar (n / 10 ^ w) :: pad w (n % 10 ^ w)

/-- `time.strftime` on a format string, for the directives used by the
program (`%Y %m %d %H %M %S`); other characters are copied verbatim. -/
def strftimeChars (t : TimeTuple) : List Char → List Char
  | [] => []
  | '%' :: c :: rest =>
      (match c with
       | 'Y' => pad 4 t.year
       | 'm' => pad 2 t.month
       | 'd' => pad 2 t.mday
       | 'H' => pad 2 t.hour
       | 'M' => pad 2 t.minute
       | 'S' => pad 2 t.second
       | c' => ['%', c']) ++ strftimeChars t rest
  | c :: rest => c :: strftimeChars t rest

def strftime (fmt : String) (t : TimeTuple) : String :=
  String.mk (strftimeChars t fmt.data)

/-- Python string comparison `a < b`: lexicographic by code point, a strict
proper initial segment is smaller.  This is the order used by `list.sort()`
on `str` in `getFilesToDelete` and the order meant by "lexicographic" in the
spec's sortability property. -/
def strLtChars : List Char → List Char → Bool
  | [], [] => false
  | [], _ :: _ => true
  | _ :: _, [] => false
  | a :: as, b :: bs => if a < b then true else if b < a then false else strLtChars as bs

def pyStrLt (a b : String) : Bool := strLtChars a.data b.data

/-- `s starts with pat` on character lists (`str.startswith`). -/
def listStarts : List Char → List Char → Bool
  | [], _ => true
  | _ :: _, [] => false
  | a :: as, b :: bs => a = b && listStarts as bs

/-- `str.split('.')` (keeps empty parts, `"".split('.') == [""]`). -/
def splitOnDot : List Char → List (List Char)
  | [] => [[]]
  | c :: rest =>
      if c = '.' then [] :: splitOnDot rest
      else
        match splitOnDot rest with
        | part :: parts => (c :: part) :: parts
        | [] => [[c]]

/-- ASCII `\w` under `re.ASCII`: `[a-zA-Z0-9_]`. -/
def isAsciiWord (c : Char) : Bool := c.isAlpha || c.isDigit || c = '_'

/-- Consume exactly `n` ASCII digits (`\d{n}` under `re.ASCII`). -/
def takeDigits : Nat → List Char → Option (List Char)
  | 0, s => some s
  | n + 1, c :: s => if c.isDigit then takeDigits n s else none
  | _ + 1, [] => none

/-- Consume one literal character. -/
def expectChar (ch : Char) : List Char → Option (List Char)
  | c :: s => if c = ch then some s else none
  | [] => none

/-- The regex tail `(\.\w+)?$` applied to the rest of the string (no file name
in the model contains a newline, so `$` is end-of-string). -/
def optDotWordEnd : List Char → Bool
  | [] => true
  | c :: rest => c = '.' && !rest.isEmpty && rest.all isAsciiWord

/-- The four `extMatch` regexes `TimedRotatingFileHandler.__init__` can
install, named by the `when` family that installs them. -/
inductive ExtPat
  | secs   -- ^\d{4}-\d{2}-\d{2}_\d{2}-\d{2}-\d{2}(\.\w+)?$   (when = 'S')
  | mins   -- ^\d{4}-\d{2}-\d{2}_\d{2}-\d{2}(\.\w+)?$         (when = 'M')
  | hours  -- ^\d{4}-\d{2}-\d{2}_\d{2}(\.\w+)?$               (when = 'H')
  | days   -- ^\d{4}-\d{2}-\d{2}(\.\w+)?$                     (when = 'D'/'MIDNIGHT'/'W0'-'W6')
deriving Repr, DecidableEq

/-- The part of each pattern after the common `\d{4}-\d{2}-\d{2}` head. -/
def extTail (p : ExtPat) (l : List Char) : Option (List Char) :=
  match p with
  | .days => some l
  | .hours => do
      let l ← expectChar '_' l
      takeDigits 2 l
  | .mins => do
      let l ← expectChar '_' l
      let l ← takeDigits 2 l
      let l ← expectChar '-' l
      takeDigits 2 l
  | .secs => do
      let l ← expectChar '_' l
      let l ← takeDigits 2 l
      let l ← expectChar '-' l
      let l ← takeDigits 2 l
      let l ← expectChar '-' l
      takeDigits 2 l

/-- `self.extMatch.match(part)` (anchored at the start; the patterns end in
`$`, so this is a full match). -/
def extMatchRun (p : ExtPat) (s : List Char) : Bool :=
  match (do
      let l ← takeDigits 4 s
      let l ← expectChar '-' l
      let l ← takeDigits 2 l
      let l ← expectChar '-' l
      let l ← takeDigits 2 l
      extTail p l) with
  | some r => optDotWordEnd r
  | none => false

/-- Index of the last `'.'` in a character list, if any. -/
def lastDot : List Char → Option Nat
  | [] => none
  | c :: rest =>
      match lastDot rest with
      | some i => some (i + 1)
      | none => if c = '.' then some 0 else none

/-- The root part of `os.path.splitext` for a plain base name (no path
separator): cut at the last dot unless every character before it is a dot. -/
def splitextRoot (s : String) : String :=
  match lastDot s.data with
  | none => s
  | some i =>
      if (s.data.take i).any (fun c => c ≠ '.') then String.mk (s.data.take i) else s

/-- ASCII upper-casing (`str.upper`; every `when` argument is ASCII). -/
def asciiUpper (s : String) : String := String.mk (s.data.map Char.toUpper)

deriving instance DecidableEq for Except

/-- One record handed to the logging machinery: severity and message. -/
abbrev LogRec := Int × String

/-- The target directory: file names with their contents (sequence of
records written).  `os.listdir` order is the list order; `getFilesToDelete`
sorts before truncating, so the order never influences what is deleted. -/
abbrev FS := List (String × List LogRec)

def fsKeys (fs : FS) : List String := fs.map Prod.fst

def fsLookup : FS → String → Option (List LogRec)
  | [], _ => none
  | (k, v) :: rest, n => if k = n then some v else fsLookup rest n

/-- `os.path.exists`. -/
def fsExists (fs : FS) (n : String) : Bool := (fsLookup fs n).isSome

/-- `os.remove`. -/
def fsRemove (fs : FS) (n : String) : FS := fs.filter (fun p => p.1 ≠ n)

/-- `os.rename src dst` (callers guard on `src` existing). -/
def fsRename (fs : FS) (src dst : String) : FS :=
  match fsLookup fs src with
  | some content => (dst, content) :: fsRemove fs src
  | none => fs

/-- Opening a file in append mode (`delay=False` open or re-open after
rollover): creates the file empty if absent, keeps it otherwise. -/
def fsOpenAppend (fs : FS) (n : String) : FS :=
  if fsExists fs n then fs else (n, []) :: fs

/-- Append one record to an existing file. -/
def fsAppendLine (fs : FS) (n : String) (r : LogRec) : FS :=
  fs.map (fun p => if p.1 = n then (p.1, p.2 ++ [r]) else p)

/-- State of a `TimedRotatingFileHandler` as configured by the script
(`utc=False`, `atTime=None`, `delay=False`, no `namer`/`rotator`).
`baseFilename` is the file's name inside the target directory (the `FS`);
`when` is the upper-cased rotation specifier; `streamOpen` tracks whether
`self.stream` is a live handle. -/
structure TRFH where
  baseFilename : String
  whenSpec : String
  dayOfWeek : Nat
  backupCount : Int
  interval : Int
  suffix : String
  extMatch : ExtPat
  level : Int
  rolloverAt : Int
  streamOpen : Bool
deriving Repr, DecidableEq

/-- `_MIDNIGHT`: seconds in a day. -/
def MIDNIGHT : Int := 24 * 60 * 60

/-- `TimedRotatingFileHandler.computeRollover` with `utc=False`,
`atTime=None`; `lt` stands for `time.localtime`. -/
def computeRollover (h : TRFH) (lt : Int → TimeTuple) (currentTime : Int) : Int :=
  let result := currentTime + h.interval
  if h.whenSpec = "MIDNIGHT" || listStarts ['W'] h.whenSpec.data then
    let t := lt currentTime
    -- r is the number of seconds left between now and the next rotation
    let r0 : Int := MIDNIGHT - ((t.hour * 60 + t.minute) * 60 + t.second)
    let r : Int := if r0 < 0 then r0 + MIDNIGHT else r0
    let currentDay : Nat := if r0 < 0 then (t.wday + 1) % 7 else t.wday
    let result := currentTime + r
    if listStarts ['W'] h.whenSpec.data then
      if currentDay ≠ h.dayOfWeek then
        let daysToWait : Int :=
          if currentDay < h.dayOfWeek then (h.dayOfWeek : Int) - currentDay
          else 6 - (currentDay : Int) + h.dayOfWeek + 1
        let newRolloverAt := result + daysToWait * (60 * 60 * 24)
        let dstNow := t.isdst
        let dstAtRollover := (lt newRolloverAt).isdst
        if dstNow ≠ dstAtRollover then
          if !dstNow then newRolloverAt - 3600 else newRolloverAt + 3600
        else newRolloverAt
      else result
    else result
  else result

/-- The `while newRolloverAt <= currentTime: newRolloverAt += interval`
catch-up loop of `doRollover`, with a fuel argument.  When the interval is
positive each pass raises `newRolloverAt` by at least one, so the supplied
fuel in `catchUp` is enough and the fuel never runs out; when the interval
is not positive and the start value is not already in the future the Python
loop never terminates, which the model reports as `none`. -/
def catchUpFuel : Nat → Int → Int → Int → Option Int
  | 0, _, _, _ => none
  | fuel + 1, interval, currentTime, newRolloverAt =>
      if newRolloverAt ≤ currentTime then
        if 0 < interval then catchUpFuel fuel interval currentTime (newRolloverAt + interval)
        else none
      else some newRolloverAt

def catchUp (interval currentTime newRolloverAt : Int) : Option Int :=
  catchUpFuel ((currentTime + 1 - newRolloverAt).toNat + 1) interval currentTime newRolloverAt

/-- Insert into an ascending list (helper for `pySort`). -/
def insertAsc (x : String) : List String → List String
  | [] => [x]
  | y :: ys => if strLtChars y.data x.data then y :: insertAsc x ys else x :: y :: ys

/-- `list.sort()` on strings: ascending, lexicographic by code point (a
structural insertion sort computing the same ascending sequence). -/
def pySort : List String → List String
  | [] => []
  | x :: xs => insertAsc x (pySort xs)

/-- `TimedRotatingFileHandler.getFilesToDelete` (Python 3.11, `namer=None`).
Enumerates the directory, keeps names that start with the base name, whose
first `len(root)+1` characters are `root + '.'`, and one of whose dot-parts
after that matches `extMatch`; if fewer than `backupCount` match nothing is
deleted, otherwise all but the `backupCount` largest (sorted order) are
returned. -/
def getFilesToDelete (h : TRFH) (fs : FS) : List String :=
  let baseName := h.baseFilename
  let pre := (splitextRoot baseName).data ++ ['.']
  let plen := pre.length
  let result := (fsKeys fs).filter (fun fileName =>
    listStarts baseName.data fileName.data &&
    decide (fileName.data.take plen = pre) &&
    (splitOnDot (fileName.data.drop plen)).any (fun part => extMatchRun h.extMatch part))
  if (result.length : Int) < h.backupCount then []
  else
    let sorted := pySort result
    sorted.take (((sorted.length : Int) - h.backupCount).toNat)

/-- The `timeTuple` used for the archive name in `doRollover`:
`localtime(rolloverAt - interval)`, DST-adjusted against `localtime(now)`. -/
def rolloverTuple (h : TRFH) (lt : Int → TimeTuple) (now : Int) : TimeTuple :=
  let dstNow := (lt now).isdst
  let t := h.rolloverAt - h.interval
  let timeTuple := lt t
  if dstNow ≠ timeTuple.isdst then
    lt (t + (if dstNow then 3600 else -3600))
  else timeTuple

/-- `dfn`, the archive name computed in `doRollover`
(`self.baseFilename + "." + time.strftime(self.suffix, timeTuple)`). -/
def rolloverArchiveName (h : TRFH) (lt : Int → TimeTuple) (now : Int) : String :=
  h.baseFilename ++ "." ++ strftime h.suffix (rolloverTuple h lt now)

/-- `TimedRotatingFileHandler.doRollover` acting on the directory:
close the stream, move the base file to its archive name (removing a
pre-existing file of that name first), prune archives when `backupCount > 0`,
reopen the base file, and recompute `rolloverAt` through the catch-up loop
(`none` when that loop diverges). -/
def doRollover (h : TRFH) (fs : FS) (lt : Int → TimeTuple) (now : Int) :
    Option (TRFH × FS) :=
  let dfn := rolloverArchiveName h lt now
  let fs1 := if fsExists fs dfn then fsRemove fs dfn else fs
  let fs2 := if fsExists fs1 h.baseFilename then fsRename fs1 h.baseFilename dfn else fs1
  let fs3 := if 0 < h.backupCount then (getFilesToDelete h fs2).foldl fsRemove fs2 else fs2
  let fs4 := fsOpenAppend fs3 h.baseFilename
  match catchUp h.interval now (computeRollover h lt now) with
  | none => none
  | some newRA =>
      let dstNow := (lt now).isdst
      let newRA :=
        if h.whenSpec = "MIDNIGHT" || listStarts ['W'] h.whenSpec.data then
          let dstAtRollover := (lt newRA).isdst
          if dstNow ≠ dstAtRollover then
            if !dstNow then newRA - 3600 else newRA + 3600
          else newRA
        else newRA
      some ({ h with rolloverAt := newRA, streamOpen := true }, fs4)

/-- `TimedRotatingFileHandler.__init__` for the arguments the script passes
(`filename`, `when`, `interval`, `backupCount`; `utc=False`, `atTime=None`,
`delay=False`).  The base file is opened (created) before the `when`
specifier is validated, so it exists even when a `ValueError` is raised;
`initT` is the `os.stat` mtime / `time.time()` value used for the first
deadline.  Unrecognized specifiers produce the `ValueError` messages of the
library. -/
def trfhInit (filename : String) (whenArg : String) (interval : Int)
    (backupCount : Int) (lt : Int → TimeTuple) (initT : Int) (fs : FS) :
    Except String TRFH × FS :=
  let fs := fsOpenAppend fs filename
  let whenU := asciiUpper whenArg
  let mk : Int → String → ExtPat → Nat → Except String TRFH := fun unit suf pat dow =>
    let h : TRFH :=
      { baseFilename := filename, whenSpec := whenU, dayOfWeek := dow
        backupCount := backupCount, interval := unit * interval, suffix := suf
        extMatch := pat, level := 0, rolloverAt := 0, streamOpen := true }
    .ok { h with rolloverAt := computeRollover h lt initT }
  let res : Except String TRFH :=
    if whenU = "S" then mk 1 "%Y-%m-%d_%H-%M-%S" .secs 0
    else if whenU = "M" then mk 60 "%Y-%m-%d_%H-%M" .mins 0
    else if whenU = "H" then mk (60 * 60) "%Y-%m-%d_%H" .hours 0
    else if whenU = "D" || whenU = "MIDNIGHT" then mk (60 * 60 * 24) "%Y-%m-%d" .days 0
    else if listStarts ['W'] whenU.data then
      match whenU.data with
      | [_, c] =>
          if c < '0' || '6' < c then
            .error "Invalid day specified for weekly rollover"
          else mk (60 * 60 * 24 * 7) "%Y-%m-%d" .days (c.toNat - '0'.toNat)
      | _ => .error "You must specify a day for weekly rollover from 0 to 6 (0 is Monday)"
    else .error "Invalid rollover interval specified"
  (res, fs)

/-- A handler object: the rotating file handler (with a closed flag set by
`Handler.close`, which the script never calls) or a console
`StreamHandler`. -/
inductive HandlerObj
  | fileH (h : TRFH) (closed : Bool)
  | streamH (level : Int) (closed : Bool)
deriving Repr, DecidableEq

/-- A `logging.Logger`: its level and the handler objects attached to it,
referred to by identity (the heap key in `LoggingState`). -/
structure PyLogger where
  level : Int
  handlers : List Nat
deriving Repr, DecidableEq

/-- Association-list lookup (first match), used for the logger registry and
the handler heap. -/
def alookup {α β : Type} [DecidableEq α] : List (α × β) → α → Option β
  | [], _ => none
  | (k, v) :: rest, a => if k = a then some v else alookup rest a

/-- The process-wide `logging` state: the manager's logger registry, a heap
giving each live handler object an identity, and the next fresh identity. -/
structure LoggingState where
  loggers : List (String × PyLogger)
  heap : List (Nat × HandlerObj)
  nextId : Nat
deriving Repr, DecidableEq

def emptyState : LoggingState := ⟨[], [], 0⟩

def lookupLogger (st : LoggingState) (name : String) : Option PyLogger :=
  alookup st.loggers name

/-- Replace the registry entry for `name` (mutation of the logger object). -/
def setLogger (st : LoggingState) (name : String) (lg : PyLogger) : LoggingState :=
  { st with loggers := st.loggers.map (fun p => if p.1 = name then (p.1, lg) else p) }

def heapGet (st : LoggingState) (i : Nat) : Option HandlerObj := alookup st.heap i

/-- In-place mutation of the handler object `i`. -/
def heapSet (st : LoggingState) (i : Nat) (obj : HandlerObj) : LoggingState :=
  { st with heap := st.heap.map (fun p => if p.1 = i then (p.1, obj) else p) }

/-- `logging.getLogger(name)`: return the registered logger for `name`,
creating and registering a fresh one (level `NOTSET = 0`, no handlers) when
absent.  The returned reference is the registry key. -/
def getLogger (st : LoggingState) (name : String) : LoggingState × String :=
  match lookupLogger st name with
  | some _ => (st, name)
  | none => ({ st with loggers := st.loggers ++ [(name, { level := 0, handlers := [] })] }, name)

/-- `create_rotating_logger` (lines 375-458 of the script) acting on the
logging state and the target directory.  Directory creation (`os.makedirs`)
and the formatter are outside the model: the `FS` is the target directory
itself and records are stored unformatted.  Returns the new state, the new
directory, and either the logger's name or the `ValueError` text raised by
the handler constructor (the registry mutations made before the raise are
kept, as in Python). -/
def create_rotating_logger (st : LoggingState) (fs : FS)
    (name : String) (log_file : String) (level : Int)
    (whenArg : String) (interval : Int) (backup_count : Int)
    (console_output : Bool) (lt : Int → TimeTuple) (initT : Int) :
    LoggingState × FS × Except String String :=
  -- logger = logging.getLogger(name); logger.setLevel(level)
  let p := getLogger st name
  let st := p.1
  let lname := p.2
  let lg0 := (lookupLogger st lname).getD { level := 0, handlers := [] }
  -- if logger.handlers: logger.handlers.clear()   (clearing an empty list is the identity)
  let lg := { lg0 with level := level, handlers := [] }
  let st := setLogger st lname lg
  match trfhInit log_file whenArg interval backup_count lt initT fs with
  | (.error e, fs) => (st, fs, .error e)
  | (.ok fh, fs) =>
      -- file_handler.setLevel(level); file_handler.suffix = "%Y-%m-%d_%H-%M-%S"
      -- (extMatch is left at the value __init__ chose for `when`)
      let fh := { fh with level := level, suffix := "%Y-%m-%d_%H-%M-%S" }
      let fid := st.nextId
      let st := { st with heap := (fid, .fileH fh false) :: st.heap, nextId := fid + 1 }
      let lg := { lg with handlers := lg.handlers ++ [fid] }
      if console_output then
        let cid := st.nextId
        let st := { st with heap := (cid, .streamH level false) :: st.heap, nextId := cid + 1 }
        let lg := { lg with handlers := lg.handlers ++ [cid] }
        (setLogger st lname lg, fs, .ok lname)
      else
        (setLogger st lname lg, fs, .ok lname)

/-- `get_existing_logger` (lines 461-471): just `logging.getLogger(name)`. -/
def get_existing_logger (st : LoggingState) (name : String) : LoggingState × String :=
  getLogger st name

/-- The world outside the logging state during emission: the target
directory, what has been echoed to the console stream, and the reports
`Handler.handleError` printed to `sys.stderr`. -/
structure World where
  fs : FS
  console : List LogRec
  stderrLog : List LogRec
deriving Repr, DecidableEq

/-- The environment of one emit call: the wall clock, `time.localtime`, and
whether the write to the file / console stream succeeds (disk full etc.). -/
structure EmitEnv where
  now : Int
  lt : Int → TimeTuple
  fileWriteOk : Bool
  consoleWriteOk : Bool

/-- What one handler's `handle` did with a record: wrote it, caught a write
failure inside `emit` and routed it to `handleError` (which prints a report
to stderr and returns), or let an exception propagate to the caller.  The
last is what the spec asserts for failed writes. -/
inductive EmitOutcome
  | written
  | handled
  | raised
deriving Repr, DecidableEq

/-- `BaseRotatingHandler.emit`: roll over first when the deadline has
passed, then `FileHandler.emit`/`StreamHandler.emit` write the record; any
exception from the write is caught and sent to `Handler.handleError`, which
prints a report to stderr and returns normally (only `RecursionError` is
re-raised, which cannot arise here).  `none` models the non-terminating
catch-up loop. -/
def trfhEmit (fh : TRFH) (w : World) (env : EmitEnv) (rec : LogRec) :
    Option (TRFH × World × EmitOutcome) :=
  let roll := if fh.rolloverAt ≤ env.now then doRollover fh w.fs env.lt env.now
              else some (fh, w.fs)
  match roll with
  | none => none
  | some (fh, fs) =>
      if env.fileWriteOk then
        some (fh, { w with fs := fsAppendLine fs fh.baseFilename rec }, .written)
      else
        some (fh, { w with fs := fs, stderrLog := w.stderrLog ++ [rec] }, .handled)

/-- `Logger.getEffectiveLevel`: the logger's own level when set; otherwise
the root logger's default `WARNING = 30` (the script never configures the
root logger). -/
def getEffectiveLevel (lg : PyLogger) : Int := if lg.level ≠ 0 then lg.level else 30

/-- `Logger.callHandlers` over the logger's own handler list (the loggers
the script creates always have a handler, so the hierarchy walk and the
`lastResort` handler never contribute).  Each handler runs when
`record.levelno >= handler.level`; the console `StreamHandler` write is the
same try/except-to-`handleError` as the file write. -/
def callHandlers (env : EmitEnv) (rec : LogRec) :
    LoggingState → World → List Nat → Option (LoggingState × World × List EmitOutcome)
  | st, w, [] => some (st, w, [])
  | st, w, hid :: rest =>
      let step : Option (LoggingState × World × List EmitOutcome) :=
        match heapGet st hid with
        | none => some (st, w, [])
        | some (.fileH fh cl) =>
            if fh.level ≤ rec.1 then
              match trfhEmit fh w env rec with
              | none => none
              | some (fh, w, oc) => some (heapSet st hid (.fileH fh cl), w, [oc])
            else some (st, w, [])
        | some (.streamH lvl _) =>
            if lvl ≤ rec.1 then
              if env.consoleWriteOk then some (st, { w with console := w.console ++ [rec] }, [.written])
              else some (st, { w with stderrLog := w.stderrLog ++ [rec] }, [.handled])
            else some (st, w, [])
      match step with
      | none => none
      | some (st, w, ocs) =>
          match callHandlers env rec st w rest with
          | none => none
          | some (st, w, ocs2) => some (st, w, ocs ++ ocs2)

/-- A level-method call `logger.<level>(msg)` on the logger registered under
`name`: `if self.isEnabledFor(level): self._log(...)` — below the effective
level nothing at all happens; otherwise the record goes through
`callHandlers`.  Returns the outcome of each handler that ran. -/
def loggerLog (st : LoggingState) (w : World) (name : String) (level : Int)
    (msg : String) (env : EmitEnv) : Option (LoggingState × World × List EmitOutcome) :=
  match lookupLogger st name with
  | none => some (st, w, [])
  | some lg =>
      if getEffectiveLevel lg ≤ level then callHandlers env (level, msg) st w lg.handlers
      else some (st, w, [])

/-! ### Concrete scenario inputs

A simple DST-free local clock for concrete runs: epoch 0 is
2025-01-01 00:00:00, a Wednesday (`tm_wday = 2`); runs stay inside
January 2025. -/

def demoLT (t : Int) : TimeTuple :=
  let tn := t.toNat
  { year := 2025, month := 1, mday := 1 + tn / 86400, hour := tn % 86400 / 3600
    minute := tn % 3600 / 60, second := tn % 60, wday := (2 + tn / 86400) % 7
    isdst := false }

def demoEnv (n : Int) : EmitEnv :=
  { now := n, lt := demoLT, fileWriteOk := true, consoleWriteOk := true }

/-- Scenario for C1: sink with the default `when="midnight"` and
`backup_count = 1`, created at epoch 0; one record at each of the first two
midnights forces two rollovers. -/
def c1Created : LoggingState × FS × Except String String :=
  create_rotating_logger emptyState [] "app" "application.log" 20 "midnight" 1 1 false demoLT 0

def c1Run : Option (LoggingState × World × List EmitOutcome) :=
  match loggerLog c1Created.1 { fs := c1Created.2.1, console := [], stderrLog := [] }
      "app" 20 "m1" (demoEnv 86400) with
  | some (st, w, _) => loggerLog st w "app" 20 "m2" (demoEnv 172800)
  | none => none

/-- The directory contents after the C1 scenario. -/
def c1FinalKeys : List String :=
  match c1Run with
  | some (_, w, _) => fsKeys w.fs
  | none => []

/-- The archives (non-base files) left by the C1 scenario. -/
def c1Archives : List String := c1FinalKeys.filter (fun f => f ≠ "application.log")

/-- Scenario for C2: a sink whose next write fails (disk full). -/
def c2Created : LoggingState × FS × Except String String :=
  create_rotating_logger emptyState [] "app2" "app.log" 20 "midnight" 1 7 false demoLT 0

def c2Run : Option (LoggingState × World × List EmitOutcome) :=
  loggerLog c2Created.1 { fs := c2Created.2.1, console := [], stderrLog := [] }
    "app2" 20 "boom"
    { now := 10, lt := demoLT, fileWriteOk := false, consoleWriteOk := true }

def c2Outcomes : List EmitOutcome :=
  match c2Run with
  | some (_, _, ocs) => ocs
  | none => []

def c2FinalWorld : World :=
  match c2Run with
  | some (_, w, _) => w
  | none => { fs := [], console := [], stderrLog := [] }

/-- All records present anywhere in the directory. -/
def allRecs (fs : FS) : List LogRec := (fs.map Prod.snd).foldr (· ++ ·) []

/-- The timestamp format the script installs as the archive suffix
(line 446: `file_handler.suffix = "%Y-%m-%d_%H-%M-%S"`). -/
def tsString (t : TimeTuple) : String := strftime "%Y-%m-%d_%H-%M-%S" t

/-- Chronological (lexicographic componentwise) order on broken-down times. -/
def chronLt (a b : TimeTuple) : Prop :=
  a.year < b.year ∨ (a.year = b.year ∧
    (a.month < b.month ∨ (a.month = b.month ∧
      (a.mday < b.mday ∨ (a.mday = b.mday ∧
        (a.hour < b.hour ∨ (a.hour = b.hour ∧
          (a.minute < b.minute ∨ (a.minute = b.minute ∧
            a.second < b.second)))))))))

instance (a b : TimeTuple) : Decidable (chronLt a b) := by
  unfold chronLt; infer_instance

/-- Field bounds of any `time.localtime` result of a nonnegative epoch (the
real ranges are tighter; these are what fixed-width zero-padding needs). -/
def validTT (t : TimeTuple) : Prop :=
  1000 ≤ t.year ∧ t.year < 10000 ∧ t.month < 100 ∧ t.mday < 100 ∧
    t.hour < 100 ∧ t.minute < 100 ∧ t.second < 100

instance (t : TimeTuple) : Decidable (validTT t) := by
  unfold validTT; infer_instance

/-- The `when` strings (upper-cased) that `TimedRotatingFileHandler.__init__`
accepts without raising `ValueError`. -/
def isValidWhen (w : String) : Prop :=
  w = "S" ∨ w = "M" ∨ w = "H" ∨ w = "D" ∨ w = "MIDNIGHT" ∨
    ∃ c, w.data = ['W', c] ∧ '0' ≤ c ∧ c ≤ '6'

/-- The rotating file handler the last `create_rotating_logger` call for
`name` installed: the first handler of the registered logger. -/
def createdFileHandler (st : LoggingState) (name : String) : Option TRFH :=
  match lookupLogger st name with
  | some lg =>
      match lg.handlers with
      | fid :: _ =>
          match heapGet st fid with
          | some (.fileH fh _) => some fh
          | _ => none
      | [] => none
  | none => none

/-- A sequence of rollovers at the given instants. -/
def iterRollover (lt : Int → TimeTuple) : List Int → TRFH → FS → Option (TRFH × FS)
  | [], h, fs => some (h, fs)
  | n :: ns, h, fs =>
      match doRollover h fs lt n with
      | none => none
      | some (h', fs') => iterRollover lt ns h' fs'

/-! Witness scenarios (one per claim that needs one). -/

/-- C6 witness scenario: retention 0, second-based rotation. -/
def c6Created : LoggingState × FS × Except String String :=
  create_rotating_logger emptyState [] "c6" "a.log" 20 "S" 5 0 false demoLT 0

/-- C7 witness scenario: an INFO-level sink. -/
def c7Created : LoggingState × FS × Except String String :=
  create_rotating_logger emptyState [] "c7" "c7.log" 20 "midnight" 1 7 false demoLT 0

/-- C8 witness scenario. -/
def c8Created : LoggingState × FS × Except String String :=
  create_rotating_logger emptyState [] "c8" "c8.log" 20 "midnight" 1 7 true demoLT 0

/-- C3/C10 witness scenario: the same name constructed twice. -/
def c3Created1 : LoggingState × FS × Except String String :=
  create_rotating_logger emptyState [] "c3" "c3.log" 20 "midnight" 1 7 true demoLT 0

def c3Created2 : LoggingState × FS × Except String String :=
  create_rotating_logger c3Created1.1 c3Created1.2.1 "c3" "c3.log" 10 "H" 2 3 false demoLT 50

/-- C9 witness scenario: console echo enabled. -/
def c9Created : LoggingState × FS × Except String String :=
  create_rotating_logger emptyState [] "c9" "c9.log" 20 "midnight" 1 7 true demoLT 0

/-- C2 amended-claim witness scenario: a handler before its deadline whose
write fails. -/
def c2wH : TRFH :=
  { baseFilename := "w.log", whenSpec := "S", dayOfWeek := 0, backupCount := 7
    interval := 5, suffix := "%Y-%m-%d_%H-%M-%S", extMatch := .secs, level := 20
    rolloverAt := 100, streamOpen := true }

def c2wW : World := { fs := [("w.log", [])], console := [], stderrLog := [] }

def c2wEnv : EmitEnv := { now := 0, lt := demoLT, fileWriteOk := false, consoleWriteOk := true }

def c2wOut : TRFH × World × EmitOutcome :=
  (c2wH, { fs := [("w.log", [])], console := [], stderrLog := [(20, "x")] }, .handled)

/-! ## Lemmas about the embedding -/

theorem alookup_append {α β : Type} [DecidableEq α] (l₁ l₂ : List (α × β)) (a : α) :
    alookup (l₁ ++ l₂) a =
      match alookup l₁ a with
      | some v => some v
      | none => alookup l₂ a := by
  induction l₁ with
  | nil => simp [alookup]
  | cons p rest ih =>
    obtain ⟨k, v⟩ := p
    by_cases hk : k = a <;> simp [alookup, hk, ih]

theorem alookup_map_update {α β : Type} [DecidableEq α] (l : List (α × β)) (a : α) (b : β) :
    alookup (l.map fun p => if p.1 = a then (p.1, b) else p) a =
      if (alookup l a).isSome then some b else none := by
  induction l with
  | nil => simp [alookup]
  | cons p rest ih =>
    obtain ⟨k, v⟩ := p
    simp only [List.map_cons]
    by_cases hk : k = a
    · subst hk
      rw [if_pos rfl]
      simp [alookup]
    · rw [if_neg hk]
      simp [alookup, hk, ih]

theorem lookupLogger_setLogger_self (st : LoggingState) (name : String) (lg : PyLogger)
    (h : (lookupLogger st name).isSome) :
    lookupLogger (setLogger st name lg) name = some lg := by
  unfold lookupLogger setLogger at *
  rw [alookup_map_update, if_pos h]

theorem getLogger_snd (st : LoggingState) (name : String) : (getLogger st name).2 = name := by
  unfold getLogger
  cases h : lookupLogger st name <;> simp [h]

theorem getLogger_nextId (st : LoggingState) (name : String) :
    (getLogger st name).1.nextId = st.nextId := by
  unfold getLogger
  cases h : lookupLogger st name <;> simp [h]

theorem getLogger_heap (st : LoggingState) (name : String) :
    (getLogger st name).1.heap = st.heap := by
  unfold getLogger
  cases h : lookupLogger st name <;> simp [h]

theorem getLogger_lookup_isSome (st : LoggingState) (name : String) :
    (lookupLogger (getLogger st name).1 name).isSome := by
  unfold getLogger
  cases h : lookupLogger st name with
  | some lg => simp [h]
  | none =>
      have h' : alookup st.loggers name = none := h
      simp [lookupLogger, alookup_append, h', alookup]

theorem getLogger_of_mem (st : LoggingState) (name : String) (lg : PyLogger)
    (h : lookupLogger st name = some lg) : getLogger st name = (st, name) := by
  unfold getLogger
  rw [h]

theorem fsExists_openAppend_self (fs : FS) (n : String) :
    fsExists (fsOpenAppend fs n) n = true := by
  unfold fsOpenAppend fsExists
  cases h : fsLookup fs n with
  | some v => simp [h]
  | none => simp [h, fsLookup]

theorem fsExists_openAppend_mono (fs : FS) (n f : String) (h : fsExists fs f = true) :
    fsExists (fsOpenAppend fs n) f = true := by
  unfold fsOpenAppend
  by_cases hn : fsExists fs n
  · simpa [hn]
  · simp only [hn, if_neg, Bool.false_eq_true, if_false]
    unfold fsExists fsLookup
    by_cases hf : n = f
    · simp [hf]
    · simpa [hf] using h

theorem fsLookup_remove_ne (fs : FS) (n f : String) (h : f ≠ n) :
    fsLookup (fsRemove fs n) f = fsLookup fs f := by
  induction fs with
  | nil => rfl
  | cons p rest ih =>
    obtain ⟨k, v⟩ := p
    unfold fsRemove at ih ⊢
    simp only [ne_eq, decide_not] at ih
    by_cases hk : k = n
    · subst hk
      have hkf : ¬(k = f) := fun hkf => h hkf.symm
      simp only [List.filter_cons]
      simp [fsLookup, hkf, ih]
    · by_cases hkf : k = f
      · subst hkf
        simp [List.filter_cons, fsLookup, hk]
      · simp [List.filter_cons, fsLookup, hk, hkf, ih]

theorem fsExists_remove_ne (fs : FS) (n f : String) (h : f ≠ n) :
    fsExists (fsRemove fs n) f = fsExists fs f := by
  unfold fsExists
  rw [fsLookup_remove_ne fs n f h]

theorem setLogger_nextId (st : LoggingState) (n : String) (lg : PyLogger) :
    (setLogger st n lg).nextId = st.nextId := rfl

theorem setLogger_heap (st : LoggingState) (n : String) (lg : PyLogger) :
    (setLogger st n lg).heap = st.heap := rfl

theorem trfhInit_snd (filename whenArg : String) (interval bc : Int)
    (lt : Int → TimeTuple) (t : Int) (fs : FS) :
    (trfhInit filename whenArg interval bc lt t fs).2 = fsOpenAppend fs filename := rfl

theorem trfhInit_ok_fields (filename whenArg : String) (interval bc : Int)
    (lt : Int → TimeTuple) (t : Int) (fs : FS) (fh : TRFH)
    (h : (trfhInit filename whenArg interval bc lt t fs).1 = .ok fh) :
    fh.baseFilename = filename ∧ fh.backupCount = bc ∧ fh.level = 0 := by
  unfold trfhInit at h
  simp only at h
  split_ifs at h <;>
    first
      | (injection h with h'; subst h'; exact ⟨rfl, rfl, rfl⟩)
      | (cases h)
      | (split at h <;>
          first
            | (split_ifs at h <;>
                first
                  | (injection h with h'; subst h'; exact ⟨rfl, rfl, rfl⟩)
                  | (cases h))
            | (cases h))

/-- Everything `create_rotating_logger` guarantees when it returns normally:
the registered logger carries exactly the new handlers (the file handler,
plus a console handler when requested), the file handler is configured from
the arguments with the overridden suffix, handler objects that existed
before are untouched, and the base file has been opened in the target
directory. -/
theorem create_ok_spec (st : LoggingState) (fs : FS) (name file : String) (level : Int)
    (whenA : String) (intv bc : Int) (co : Bool) (lt : Int → TimeTuple) (t : Int)
    (st' : LoggingState) (fs' : FS) (nm : String)
    (hc : create_rotating_logger st fs name file level whenA intv bc co lt t =
      (st', fs', .ok nm)) :
    nm = name ∧
    lookupLogger st' name =
      some { level := level
             handlers := if co then [st.nextId, st.nextId + 1] else [st.nextId] } ∧
    (∃ fh : TRFH, heapGet st' st.nextId = some (.fileH fh false) ∧
        fh.baseFilename = file ∧ fh.backupCount = bc ∧ fh.level = level ∧
        fh.suffix = "%Y-%m-%d_%H-%M-%S") ∧
    (co = true → heapGet st' (st.nextId + 1) = some (.streamH level false)) ∧
    (∀ i, i < st.nextId → heapGet st' i = heapGet st i) ∧
    fs' = fsOpenAppend fs file := by
  have hg : getLogger st name = ((getLogger st name).1, name) := by
    conv_lhs => rw [← Prod.mk.eta (p := getLogger st name)]
    rw [getLogger_snd]
  set st1 := (getLogger st name).1 with hst1
  have hnext1 : st1.nextId = st.nextId := getLogger_nextId st name
  have hheap1 : st1.heap = st.heap := getLogger_heap st name
  have hsome1 : (lookupLogger st1 name).isSome := getLogger_lookup_isSome st name
  rcases htr : trfhInit file whenA intv bc lt t fs with ⟨res, fs1⟩
  have hfs1 : fs1 = fsOpenAppend fs file := by
    rw [← trfhInit_snd file whenA intv bc lt t fs, htr]
  cases res with
  | error e =>
      simp only [create_rotating_logger, hg, htr] at hc
      injection hc with h1 h2
      injection h2 with h2 h3
      exact absurd h3 (by simp)
  | ok fh =>
      obtain ⟨hbase, hbc, _⟩ :=
        trfhInit_ok_fields file whenA intv bc lt t fs fh (by rw [htr])
      simp only [create_rotating_logger, hg, htr] at hc
      have hsome2 :
          (lookupLogger (setLogger st1 name { level := level, handlers := [] }) name).isSome := by
        rw [lookupLogger_setLogger_self st1 name _ hsome1]
        rfl
      cases co with
      | false =>
          simp only [Bool.false_eq_true, if_false] at hc
          injection hc with h1 h2
          injection h2 with h2 h3
          injection h3 with h3
          subst h1
          subst h2
          subst h3
          refine ⟨rfl, ?_, ?_, ?_, ?_, hfs1⟩
          · rw [lookupLogger_setLogger_self]
            · simp [setLogger_nextId, hnext1]
            · exact hsome2
          · refine ⟨{ fh with level := level, suffix := "%Y-%m-%d_%H-%M-%S" },
              ?_, hbase, hbc, rfl, rfl⟩
            simp [heapGet, setLogger_heap, alookup, setLogger_nextId, hnext1]
          · intro h
            exact absurd h (by simp)
          · intro i hi
            have hne : ¬(st.nextId = i) := by omega
            simp [heapGet, setLogger_heap, alookup, setLogger_nextId, hnext1, hne, hheap1]
      | true =>
          simp only [] at hc
          injection hc with h1 h2
          injection h2 with h2 h3
          injection h3 with h3
          subst h1
          subst h2
          subst h3
          refine ⟨rfl, ?_, ?_, ?_, ?_, hfs1⟩
          · rw [lookupLogger_setLogger_self]
            · simp [setLogger_nextId, hnext1]
            · exact hsome2
          · refine ⟨{ fh with level := level, suffix := "%Y-%m-%d_%H-%M-%S" },
              ?_, hbase, hbc, rfl, rfl⟩
            have hne : ¬(st.nextId + 1 = st.nextId) := by omega
            simp [heapGet, setLogger_heap, alookup, setLogger_nextId, hnext1, hne]
          · intro _
            simp [heapGet, setLogger_heap, alookup, setLogger_nextId, hnext1]
          · intro i hi
            have hne1 : ¬(st.nextId + 1 = i) := by omega
            have hne2 : ¬(st.nextId = i) := by omega
            simp [heapGet, setLogger_heap, alookup, setLogger_nextId, hnext1, hne1, hne2, hheap1]

/-- When `create_rotating_logger` raises (invalid `when`), the handler heap
is untouched — no handler object was created or modified — but the logger
is registered with its level set and handlers cleared, as in Python, where
the mutations before the raise persist. -/
theorem create_err_spec (st : LoggingState) (fs : FS) (name file : String) (level : Int)
    (whenA : String) (intv bc : Int) (co : Bool) (lt : Int → TimeTuple) (t : Int)
    (st' : LoggingState) (fs' : FS) (e : String)
    (hc : create_rotating_logger st fs name file level whenA intv bc co lt t =
      (st', fs', .error e)) :
    st'.heap = st.heap ∧ st'.nextId = st.nextId ∧ (lookupLogger st' name).isSome := by
  have hg : getLogger st name = ((getLogger st name).1, name) := by
    conv_lhs => rw [← Prod.mk.eta (p := getLogger st name)]
    rw [getLogger_snd]
  set st1 := (getLogger st name).1 with hst1
  have hnext1 : st1.nextId = st.nextId := getLogger_nextId st name
  have hheap1 : st1.heap = st.heap := getLogger_heap st name
  have hsome1 : (lookupLogger st1 name).isSome := getLogger_lookup_isSome st name
  rcases htr : trfhInit file whenA intv bc lt t fs with ⟨res, fs1⟩
  cases res with
  | ok fh =>
      simp only [create_rotating_logger, hg, htr] at hc
      cases co with
      | false =>
          simp only [Bool.false_eq_true, if_false] at hc
          injection hc with h1 h2
          injection h2 with h2 h3
          exact absurd h3 (by simp)
      | true =>
          simp only [] at hc
          injection hc with h1 h2
          injection h2 with h2 h3
          exact absurd h3 (by simp)
  | error e' =>
      simp only [create_rotating_logger, hg, htr] at hc
      injection hc with h1 h2
      injection h2 with h2 h3
      subst h1
      refine ⟨hheap1, hnext1, ?_⟩
      rw [lookupLogger_setLogger_self st1 name _ hsome1]
      rfl

/-- Membership in the records of a directory. -/
theorem mem_allRecs (r : LogRec) (fs : FS) :
    r ∈ allRecs fs ↔ ∃ p ∈ fs, r ∈ p.2 := by
  induction fs with
  | nil => simp [allRecs]
  | cons p rest ih =>
      have hcons : allRecs (p :: rest) = p.2 ++ allRecs rest := rfl
      simp [hcons, ih]

theorem fsLookup_mem (fs : FS) (k : String) (c : List LogRec)
    (h : fsLookup fs k = some c) : (k, c) ∈ fs := by
  induction fs with
  | nil => cases h
  | cons p rest ih =>
      obtain ⟨k', v⟩ := p
      unfold fsLookup at h
      by_cases hk : k' = k
      · subst hk
        rw [if_pos rfl] at h
        injection h with h
        subst h
        exact List.mem_cons_self _ _
      · rw [if_neg hk] at h
        exact List.mem_cons_of_mem _ (ih h)

theorem allRecs_remove (fs : FS) (n : String) (r : LogRec)
    (h : r ∈ allRecs (fsRemove fs n)) : r ∈ allRecs fs := by
  rw [mem_allRecs] at h ⊢
  obtain ⟨p, hp, hr⟩ := h
  exact ⟨p, List.mem_of_mem_filter hp, hr⟩

theorem allRecs_rename (fs : FS) (src dst : String) (r : LogRec)
    (h : r ∈ allRecs (fsRename fs src dst)) : r ∈ allRecs fs := by
  unfold fsRename at h
  cases hl : fsLookup fs src with
  | none => rwa [hl] at h
  | some c =>
      rw [hl] at h
      rw [mem_allRecs] at h ⊢
      obtain ⟨p, hp, hr⟩ := h
      rcases List.mem_cons.mp hp with hp | hp
      · subst hp
        exact ⟨(src, c), fsLookup_mem fs src c hl, hr⟩
      · exact ⟨p, List.mem_of_mem_filter hp, hr⟩

theorem allRecs_openAppend (fs : FS) (n : String) (r : LogRec)
    (h : r ∈ allRecs (fsOpenAppend fs n)) : r ∈ allRecs fs := by
  unfold fsOpenAppend at h
  by_cases he : fsExists fs n
  · rwa [if_pos he] at h
  · rw [if_neg he] at h
    rw [mem_allRecs] at h ⊢
    obtain ⟨p, hp, hr⟩ := h
    rcases List.mem_cons.mp hp with hp | hp
    · subst hp
      cases hr
    · exact ⟨p, hp, hr⟩

theorem allRecs_removeFold (names : List String) (fs : FS) (r : LogRec)
    (h : r ∈ allRecs (names.foldl fsRemove fs)) : r ∈ allRecs fs := by
  induction names generalizing fs with
  | nil => exact h
  | cons n rest ih => exact allRecs_remove fs n r (ih (fsRemove fs n) h)

theorem allRecs_condRemove (fs : FS) (n : String) (r : LogRec)
    (h : r ∈ allRecs (if fsExists fs n then fsRemove fs n else fs)) : r ∈ allRecs fs := by
  split at h
  · exact allRecs_remove _ _ _ h
  · exact h

theorem allRecs_condRename (fs : FS) (src dst : String) (r : LogRec)
    (h : r ∈ allRecs (if fsExists fs src then fsRename fs src dst else fs)) :
    r ∈ allRecs fs := by
  split at h
  · exact allRecs_rename _ _ _ _ h
  · exact h

theorem allRecs_condPrune (c : Prop) [Decidable c] (h : TRFH) (fs : FS) (r : LogRec)
    (hm : r ∈ allRecs (if c then (getFilesToDelete h fs).foldl fsRemove fs else fs)) :
    r ∈ allRecs fs := by
  split at hm
  · exact allRecs_removeFold _ _ _ hm
  · exact hm

/-- `doRollover` writes no record: every record in the directory afterwards
was already in it before. -/
theorem allRecs_doRollover (h : TRFH) (fs : FS) (lt : Int → TimeTuple) (now : Int)
    (h' : TRFH) (fs' : FS) (hres : doRollover h fs lt now = some (h', fs'))
    (r : LogRec) (hr : r ∈ allRecs fs') : r ∈ allRecs fs := by
  unfold doRollover at hres
  cases hcu : catchUp h.interval now (computeRollover h lt now) with
  | none => rw [hcu] at hres; cases hres
  | some newRA =>
      rw [hcu] at hres
      simp only [] at hres
      injection hres with h12
      injection h12 with h1 h2
      subst h2
      exact allRecs_condRemove _ _ _
        (allRecs_condRename _ _ _ _
          (allRecs_condPrune _ _ _ _
            (allRecs_openAppend _ _ _ hr)))

theorem base_ne_archive (base suf : String) : base ≠ base ++ "." ++ suf := by
  intro h
  have hl := congrArg String.length h
  rw [String.length_append, String.length_append] at hl
  have hdot : ("." : String).length = 1 := rfl
  omega

theorem fsExists_rename_dst (fs : FS) (src dst : String) (hsrc : fsExists fs src = true) :
    fsExists (fsRename fs src dst) dst = true := by
  unfold fsExists at hsrc
  unfold fsRename
  cases hl : fsLookup fs src with
  | none => rw [hl] at hsrc; cases hsrc
  | some c => simp [fsExists, fsLookup]

theorem fsExists_rename_other (fs : FS) (src dst f : String) (hfs : f ≠ src) (hfd : f ≠ dst)
    (h : fsExists fs f = true) : fsExists (fsRename fs src dst) f = true := by
  unfold fsRename
  cases hl : fsLookup fs src with
  | none => exact h
  | some c =>
      have hd : ¬(dst = f) := fun hd => hfd hd.symm
      unfold fsExists fsLookup
      rw [if_neg hd]
      rw [show fsLookup (fsRemove fs src) f = fsLookup fs f from fsLookup_remove_ne fs src f hfs]
      exact h

/-- One rollover with retention 0 deletes nothing: every file name present
before is present afterwards, and the handler still has retention 0 and the
same base file (which exists, freshly reopened). -/
theorem doRollover_keys_preserved (h : TRFH) (fs : FS) (lt : Int → TimeTuple) (now : Int)
    (h' : TRFH) (fs' : FS) (hbc : h.backupCount = 0)
    (hbase : fsExists fs h.baseFilename = true)
    (hres : doRollover h fs lt now = some (h', fs')) :
    h'.backupCount = 0 ∧ h'.baseFilename = h.baseFilename ∧
    fsExists fs' h'.baseFilename = true ∧
    (∀ f, fsExists fs f = true → fsExists fs' f = true) := by
  unfold doRollover at hres
  cases hcu : catchUp h.interval now (computeRollover h lt now) with
  | none => rw [hcu] at hres; cases hres
  | some newRA =>
      rw [hcu] at hres
      simp only [] at hres
      injection hres with h12
      injection h12 with h1 h2
      subst h2
      subst h1
      have hnp : ¬(0 < h.backupCount) := by rw [hbc]; omega
      rw [if_neg hnp]
      refine ⟨hbc, rfl, fsExists_openAppend_self _ _, ?_⟩
      intro f hf
      have hbne : h.baseFilename ≠ rolloverArchiveName h lt now :=
        base_ne_archive h.baseFilename (strftime h.suffix (rolloverTuple h lt now))
      by_cases hfb : f = h.baseFilename
      · subst hfb
        exact fsExists_openAppend_self _ _
      · apply fsExists_openAppend_mono
        by_cases hdfn : fsExists fs (rolloverArchiveName h lt now) = true
        · rw [if_pos hdfn]
          have hb1 : fsExists (fsRemove fs (rolloverArchiveName h lt now)) h.baseFilename = true := by
            rw [fsExists_remove_ne _ _ _ hbne]
            exact hbase
          rw [if_pos hb1]
          by_cases hfd : f = rolloverArchiveName h lt now
          · subst hfd
            exact fsExists_rename_dst _ _ _ hb1
          · apply fsExists_rename_other _ _ _ _ hfb hfd
            rw [fsExists_remove_ne _ _ _ hfd]
            exact hf
        · rw [if_neg hdfn]
          rw [if_pos hbase]
          have hfd : f ≠ rolloverArchiveName h lt now := by
            intro hfd
            rw [hfd] at hf
            exact hdfn hf
          exact fsExists_rename_other _ _ _ _ hfb hfd hf

/-- Iterated rollovers with retention 0 never delete a file. -/
theorem iterRollover_keys (lt : Int → TimeTuple) (nows : List Int) :
    ∀ (h : TRFH) (fs : FS) (h' : TRFH) (fs' : FS),
      h.backupCount = 0 → fsExists fs h.baseFilename = true →
      iterRollover lt nows h fs = some (h', fs') →
      ∀ f, fsExists fs f = true → fsExists fs' f = true := by
  induction nows with
  | nil =>
      intro h fs h' fs' _ _ hres f hf
      unfold iterRollover at hres
      injection hres with h12
      injection h12 with h1 h2
      subst h2
      exact hf
  | cons n rest ih =>
      intro h fs h' fs' hbc hbase hres f hf
      unfold iterRollover at hres
      cases hdr : doRollover h fs lt n with
      | none => rw [hdr] at hres; cases hres
      | some p =>
          rw [hdr] at hres
          simp only [] at hres
          obtain ⟨h1, fs1⟩ := p
          obtain ⟨hbc', hbn', hbase', hpres⟩ :=
            doRollover_keys_preserved _ _ _ _ _ _ hbc hbase hdr
          exact ih h1 fs1 h' fs' hbc' hbase' hres f (hpres f hf)

/-- The exceptional-or-normal result of `create_rotating_logger` is decided
exactly by the handler constructor. -/
theorem create_result (st : LoggingState) (fs : FS) (name file : String) (level : Int)
    (whenA : String) (intv bc : Int) (co : Bool) (lt : Int → TimeTuple) (t : Int) :
    (create_rotating_logger st fs name file level whenA intv bc co lt t).2.2 =
      match (trfhInit file whenA intv bc lt t fs).1 with
      | .error e => .error e
      | .ok _ => .ok name := by
  have hg : getLogger st name = ((getLogger st name).1, name) := by
    conv_lhs => rw [← Prod.mk.eta (p := getLogger st name)]
    rw [getLogger_snd]
  set st1 := (getLogger st name).1 with hst1
  rcases htr : trfhInit file whenA intv bc lt t fs with ⟨res, fs1⟩
  cases res <;> cases co <;> simp [create_rotating_logger, hg, htr]

/-- `TimedRotatingFileHandler.__init__` raises `ValueError` exactly for the
`when` specifiers outside the recognized set. -/
theorem trfhInit_error_iff (filename whenArg : String) (interval bc : Int)
    (lt : Int → TimeTuple) (t : Int) (fs : FS) :
    (∃ e, (trfhInit filename whenArg interval bc lt t fs).1 = .error e) ↔
      ¬ isValidWhen (asciiUpper whenArg) := by
  unfold trfhInit isValidWhen
  simp only []
  set w := asciiUpper whenArg with hw
  split_ifs with h1 h2 h3 h4 h5
  · simp [h1]
  · simp [h2]
  · simp [h3]
  · simp only [Bool.or_eq_true, decide_eq_true_eq] at h4
    rcases h4 with h4 | h4 <;> simp [h4]
  · -- whenU starts with 'W'
    simp only [Bool.or_eq_true, decide_eq_true_eq] at h4
    push_neg at h4
    rcases hd : w.data with _ | ⟨c0, rest⟩
    · rw [hd] at h5
      cases h5
    · have hc0 : c0 = 'W' := by
        rw [hd] at h5
        unfold listStarts at h5
        simp only [Bool.and_eq_true, decide_eq_true_eq] at h5
        exact h5.1.symm
      subst hc0
      rcases rest with _ | ⟨c1, rest2⟩
      · -- data = ['W']: the match falls through to the length error
        simp only [hd]
        constructor
        · intro _
          intro hval
          rcases hval with h | h | h | h | h | ⟨c, hc, _⟩
          · exact h1 h
          · exact h2 h
          · exact h3 h
          · exact h4.1 h
          · exact h4.2 h
          · injection hc with _ hc
            cases hc
        · intro _
          exact ⟨_, rfl⟩
      · rcases rest2 with _ | ⟨c2, rest3⟩
        · -- data = ['W', c1]: the day bound check decides
          simp only [hd]
          split_ifs with hb
          · constructor
            · intro _
              intro hval
              rcases hval with h | h | h | h | h | ⟨c, hc, hc1, hc2⟩
              · exact h1 h
              · exact h2 h
              · exact h3 h
              · exact h4.1 h
              · exact h4.2 h
              · injection hc with _ hc
                injection hc with hc _
                subst hc
                simp only [Bool.or_eq_true, decide_eq_true_eq] at hb
                rcases hb with hb | hb
                · exact absurd hc1 (not_le.mpr hb)
                · exact absurd hc2 (not_le.mpr hb)
            · intro _
              exact ⟨_, rfl⟩
          · simp only [Bool.or_eq_true, decide_eq_true_eq] at hb
            push_neg at hb
            constructor
            · rintro ⟨e, he⟩
              cases he
            · intro hval
              exact absurd (Or.inr (Or.inr (Or.inr (Or.inr (Or.inr
                ⟨c1, rfl, hb.1, hb.2⟩))))) hval
        · -- data = 'W' :: c1 :: c2 :: _ : length ≠ 2, the match falls through
          simp only [hd]
          constructor
          · intro _
            intro hval
            rcases hval with h | h | h | h | h | ⟨c, hc, _⟩
            · exact h1 h
            · exact h2 h
            · exact h3 h
            · exact h4.1 h
            · exact h4.2 h
            · injection hc with _ hc
              injection hc with _ hc
              cases hc
          · intro _
            exact ⟨_, rfl⟩
  · -- the final else: unrecognized specifier
    simp only [Bool.or_eq_true, decide_eq_true_eq] at h4
    push_neg at h4
    constructor
    · intro _
      intro hval
      rcases hval with h | h | h | h | h | ⟨c, hc, _⟩
      · exact h1 h
      · exact h2 h
      · exact h3 h
      · exact h4.1 h
      · exact h4.2 h
      · rw [hc] at h5
        simp [listStarts] at h5
    · intro _
      exact ⟨_, rfl⟩

/-- The file handler that `createdFileHandler` finds after a normal
construction is the one `create_rotating_logger` just configured. -/
theorem createdFileHandler_of_create
    (st : LoggingState) (fs : FS) (name file : String) (level : Int) (whenA : String)
    (intv bc : Int) (co : Bool) (lt : Int → TimeTuple) (t : Int)
    (st' : LoggingState) (fs' : FS) (nm : String)
    (hc : create_rotating_logger st fs name file level whenA intv bc co lt t =
      (st', fs', .ok nm))
    (fh : TRFH) (hcf : createdFileHandler st' name = some fh) :
    fh.baseFilename = file ∧ fh.backupCount = bc ∧
    fh.suffix = "%Y-%m-%d_%H-%M-%S" ∧ fs' = fsOpenAppend fs file := by
  obtain ⟨-, hlook, ⟨fhC, hheap, hbase, hbc, -, hsuf⟩, -, -, hfs'⟩ :=
    create_ok_spec st fs name file level whenA intv bc co lt t st' fs' nm hc
  unfold createdFileHandler at hcf
  rw [hlook] at hcf
  cases co with
  | false =>
      simp only [Bool.false_eq_true, if_false] at hcf
      rw [hheap] at hcf
      simp only [] at hcf
      injection hcf with hcf
      subst hcf
      exact ⟨hbase, hbc, hsuf, hfs'⟩
  | true =>
      simp only [if_true] at hcf
      rw [hheap] at hcf
      simp only [] at hcf
      injection hcf with hcf
      subst hcf
      exact ⟨hbase, hbc, hsuf, hfs'⟩

/-! ## Claim theorems -/

/-- Claim C1 (code evidence for the bug): a sink constructed with the default
calendar policy when = "midnight" and retention count K = 1 keeps BOTH archives
after two rotations, instead of exactly one.  The override
file_handler.suffix = "%Y-%m-%d_%H-%M-%S" is not accompanied by an extMatch
update, so getFilesToDelete recognizes no archive and the retention bound of
the docstring ("Number of backup files to keep") is never enforced for the
midnight/daily/hourly/minute/weekly policies. -/
theorem c1_backup_count_not_enforced :
    c1Created.2.2 = .ok "app" ∧
    c1Run.isSome = true ∧
    c1Archives = ["application.log.2025-01-02_00-00-00",
                  "application.log.2025-01-01_00-00-00"] ∧
    c1Archives.length = 2 := by decide

/-- Claim C2 (counterexample): a record at the configured minimum severity
whose file write fails is NOT raised to the caller of emit: the emit call
returns normally with the failure routed to handleError (a report on
stderr), and the record is in no file. -/
theorem c2_failed_write_not_raised :
    c2Run.isSome = true ∧
    c2Outcomes = [EmitOutcome.handled] ∧
    c2Outcomes ≠ [EmitOutcome.raised] ∧
    allRecs c2FinalWorld.fs = [] ∧
    c2FinalWorld.stderrLog = [(20, "boom")] := by decide

/-- Claim C2 (amended): when the append to the active file fails, the
exception is caught inside emit and routed to Handler.handleError, which
prints a report for the record to stderr and returns; no exception reaches
the caller, and no file receives any new record. -/
theorem c2_failed_write_routed_to_handleError (fh : TRFH) (w : World) (env : EmitEnv)
    (rec : LogRec) (out : TRFH × World × EmitOutcome)
    (hw : env.fileWriteOk = false) (hres : trfhEmit fh w env rec = some out) :
    out.2.2 = .handled ∧
    out.2.1.stderrLog = w.stderrLog ++ [rec] ∧
    (∀ r ∈ allRecs out.2.1.fs, r ∈ allRecs w.fs) := by
  unfold trfhEmit at hres
  rw [hw] at hres
  by_cases hro : fh.rolloverAt ≤ env.now
  · rw [if_pos hro] at hres
    cases hdr : doRollover fh w.fs env.lt env.now with
    | none => rw [hdr] at hres; cases hres
    | some p =>
        obtain ⟨fh2, fs2⟩ := p
        rw [hdr] at hres
        simp only [Bool.false_eq_true, if_false] at hres
        injection hres with hres
        subst hres
        exact ⟨rfl, rfl, fun r hr => allRecs_doRollover fh w.fs env.lt env.now fh2 fs2 hdr r hr⟩
  · rw [if_neg hro] at hres
    simp only [Bool.false_eq_true, if_false] at hres
    injection hres with hres
    subst hres
    exact ⟨rfl, rfl, fun r hr => hr⟩

/-- Witness for the amended C2 theorem at a concrete failing write. -/
theorem c2_failed_write_routed_to_handleError_witness :
    c2wOut.2.2 = EmitOutcome.handled ∧
    c2wOut.2.1.stderrLog = c2wW.stderrLog ++ [(20, "x")] := by
  obtain ⟨h1, h2, -⟩ :=
    c2_failed_write_routed_to_handleError c2wH c2wW c2wEnv (20, "x") c2wOut
      (by decide) (by decide)
  exact ⟨h1, h2⟩

/-- Claim C3: re-invoking create_rotating_logger for a name replaces the
logger's prior handler set with exactly the newly configured handlers; no
handler installed by an earlier call remains attached. -/
theorem c3_reconstruction_replaces_handlers
    (st : LoggingState) (fs : FS) (name file : String) (level : Int) (whenA : String)
    (intv bc : Int) (co : Bool) (lt : Int → TimeTuple) (t : Int)
    (st' : LoggingState) (fs' : FS) (nm : String) (lgOld lgNew : PyLogger)
    (hOld : lookupLogger st name = some lgOld)
    (hIds : ∀ i ∈ lgOld.handlers, i < st.nextId)
    (hc : create_rotating_logger st fs name file level whenA intv bc co lt t =
      (st', fs', .ok nm))
    (hNew : lookupLogger st' name = some lgNew) :
    lgNew.handlers = (if co then [st.nextId, st.nextId + 1] else [st.nextId]) ∧
    ∀ i ∈ lgOld.handlers, i ∉ lgNew.handlers := by
  obtain ⟨-, hlook, -, -, -, -⟩ :=
    create_ok_spec st fs name file level whenA intv bc co lt t st' fs' nm hc
  rw [hNew] at hlook
  injection hlook with hlg
  subst hlg
  refine ⟨rfl, ?_⟩
  intro i hi
  have hilt : i < st.nextId := hIds i hi
  cases co <;> simp <;> omega

/-- Witness for C3: after the second construction for name "c3", the handler
installed by the first call (id 0) is no longer attached. -/
theorem c3_reconstruction_replaces_handlers_witness :
    (0 : Nat) ∉ ({ level := 10, handlers := [2] } : PyLogger).handlers := by
  obtain ⟨-, hnotin⟩ :=
    c3_reconstruction_replaces_handlers c3Created1.1 c3Created1.2.1 "c3" "c3.log" 10 "H"
      2 3 false demoLT 50 c3Created2.1 c3Created2.2.1 "c3"
      { level := 20, handlers := [0, 1] } { level := 10, handlers := [2] }
      (by decide) (by decide) (by decide) (by decide)
  exact hnotin 0 (by decide)

/-- Claim C5 (counterexample): construction with a negative interval does not
raise; the sink is created normally, so "negative interval raises a
ConfigurationError" fails on the code. -/
theorem c5_negative_interval_accepted :
    (create_rotating_logger emptyState [] "neg" "n.log" 20 "S" (-1) 7 false
      demoLT 0).2.2 = .ok "neg" := by decide

/-- Claim C5 (amended): construction raises (a ValueError) exactly for an
unrecognized when specifier or an invalid weekly day; any interval value —
negative included — is accepted. -/
theorem c5_invalid_when_raises (st : LoggingState) (fs : FS) (name file : String)
    (level : Int) (whenA : String) (intv bc : Int) (co : Bool)
    (lt : Int → TimeTuple) (t : Int) :
    (∃ e, (create_rotating_logger st fs name file level whenA intv bc co lt t).2.2 =
        .error e) ↔
      ¬ isValidWhen (asciiUpper whenA) := by
  rw [create_result]
  rcases htr : (trfhInit file whenA intv bc lt t fs).1 with e | fh
  · simp only []
    constructor
    · intro _
      exact (trfhInit_error_iff file whenA intv bc lt t fs).mp ⟨e, htr⟩
    · intro _
      exact ⟨e, rfl⟩
  · simp only []
    constructor
    · rintro ⟨e', he'⟩
      cases he'
    · intro hnv
      obtain ⟨e', he'⟩ := (trfhInit_error_iff file whenA intv bc lt t fs).mpr hnv
      rw [htr] at he'
      cases he'

/-- Claim C6: a sink constructed with retention count 0 has a file handler
with backupCount 0 and an opened base file, and rotation with backupCount 0
never deletes a file: after any sequence of rollovers every previously
present file name is still present. -/
theorem c6_retention_zero_never_deletes :
    (∀ (st : LoggingState) (fs : FS) (name file : String) (level : Int) (whenA : String)
        (intv : Int) (co : Bool) (lt : Int → TimeTuple) (t : Int)
        (st' : LoggingState) (fs' : FS) (nm : String),
      create_rotating_logger st fs name file level whenA intv 0 co lt t =
        (st', fs', .ok nm) →
      ∀ fh, createdFileHandler st' name = some fh →
        fh.backupCount = 0 ∧ fh.baseFilename = file ∧
          fsExists fs' fh.baseFilename = true) ∧
    (∀ (lt : Int → TimeTuple) (nows : List Int) (h : TRFH) (fs : FS) (h' : TRFH) (fs' : FS),
      h.backupCount = 0 → fsExists fs h.baseFilename = true →
      iterRollover lt nows h fs = some (h', fs') →
      ∀ f, fsExists fs f = true → fsExists fs' f = true) := by
  constructor
  · intro st fs name file level whenA intv co lt t st' fs' nm hc fh hcf
    obtain ⟨hbase, hbc, -, hfs'⟩ :=
      createdFileHandler_of_create st fs name file level whenA intv 0 co lt t st' fs' nm
        hc fh hcf
    refine ⟨hbc, hbase, ?_⟩
    rw [hfs', hbase]
    exact fsExists_openAppend_self _ _
  · exact fun lt nows h fs h' fs' => iterRollover_keys lt nows h fs h' fs'

/-- Witness for C6: one rollover of a retention-0 handler leaves the old
file in place. -/
theorem c6_retention_zero_never_deletes_witness :
    fsExists [("a.log", []), ("a.log.2025-01-01_00-00-00", [])] "a.log" = true :=
  c6_retention_zero_never_deletes.2 demoLT [5]
    { baseFilename := "a.log", whenSpec := "S", dayOfWeek := 0, backupCount := 0
      interval := 5, suffix := "%Y-%m-%d_%H-%M-%S", extMatch := .secs, level := 20
      rolloverAt := 5, streamOpen := true }
    [("a.log", [])]
    { baseFilename := "a.log", whenSpec := "S", dayOfWeek := 0, backupCount := 0
      interval := 5, suffix := "%Y-%m-%d_%H-%M-%S", extMatch := .secs, level := 20
      rolloverAt := 10, streamOpen := true }
    [("a.log", []), ("a.log.2025-01-01_00-00-00", [])]
    (by decide) (by decide) (by decide) "a.log" (by decide)

/-- Claim C7: a record strictly below the logger's effective minimum level
changes nothing: the logging state (so every handler's rotation deadline),
the directory, the console, and stderr are untouched, and no handler runs. -/
theorem c7_below_level_noop (st : LoggingState) (w : World) (name : String)
    (level : Int) (msg : String) (env : EmitEnv) (lg : PyLogger)
    (hl : lookupLogger st name = some lg) (hlt : level < getEffectiveLevel lg) :
    loggerLog st w name level msg env = some (st, w, []) := by
  unfold loggerLog
  rw [hl]
  have h : ¬(getEffectiveLevel lg ≤ level) := by omega
  simp only []
  rw [if_neg h]

/-- Witness for C7: a DEBUG(10) record on an INFO(20) sink is a no-op. -/
theorem c7_below_level_noop_witness :
    loggerLog c7Created.1 { fs := [], console := [], stderrLog := [] } "c7" 10 "dbg"
      (demoEnv 0) =
      some (c7Created.1, { fs := [], console := [], stderrLog := [] }, []) :=
  c7_below_level_noop c7Created.1 { fs := [], console := [], stderrLog := [] } "c7" 10
    "dbg" (demoEnv 0) { level := 20, handlers := [0] } (by decide) (by decide)

/-- Claim C8: after any construction for a name, get_existing_logger
returns the very logger registered under that name — the state is unchanged
and the lookup yields the same registry entry. -/
theorem c8_get_existing_logger_returns_registered
    (st : LoggingState) (fs : FS) (name file : String) (level : Int) (whenA : String)
    (intv bc : Int) (co : Bool) (lt : Int → TimeTuple) (t : Int)
    (st' : LoggingState) (fs' : FS) (r : Except String String)
    (hc : create_rotating_logger st fs name file level whenA intv bc co lt t =
      (st', fs', r)) :
    ∃ lg, lookupLogger st' name = some lg ∧
      get_existing_logger st' name = (st', name) ∧
      lookupLogger (get_existing_logger st' name).1 name = some lg := by
  have hsome : ∃ lg, lookupLogger st' name = some lg := by
    cases r with
    | ok nm =>
        obtain ⟨-, hlook, -⟩ :=
          create_ok_spec st fs name file level whenA intv bc co lt t st' fs' nm hc
        exact ⟨_, hlook⟩
    | error e =>
        obtain ⟨-, -, hs⟩ :=
          create_err_spec st fs name file level whenA intv bc co lt t st' fs' e hc
        cases hl : lookupLogger st' name with
        | none => rw [hl] at hs; cases hs
        | some lg => exact ⟨lg, rfl⟩
  obtain ⟨lg, hlg⟩ := hsome
  have hge : get_existing_logger st' name = (st', name) := getLogger_of_mem st' name lg hlg
  refine ⟨lg, hlg, hge, ?_⟩
  rw [hge]
  exact hlg

/-- Witness for C8 at the concrete "c8" sink. -/
theorem c8_get_existing_logger_returns_registered_witness :
    get_existing_logger c8Created.1 "c8" = (c8Created.1, "c8") := by
  obtain ⟨lg, -, h2, -⟩ :=
    c8_get_existing_logger_returns_registered emptyState [] "c8" "c8.log" 20 "midnight"
      1 7 true demoLT 0 c8Created.1 c8Created.2.1 (Except.ok "c8") (by decide)
  exact h2

/-- Claim C9: after a normal return of create_rotating_logger, the
registered logger has exactly two handlers — the rotating file handler and
the console StreamHandler — when console output is requested, and exactly
the file handler otherwise, whatever state construction started from. -/
theorem c9_handler_count_invariant
    (st : LoggingState) (fs : FS) (name file : String) (level : Int) (whenA : String)
    (intv bc : Int) (co : Bool) (lt : Int → TimeTuple) (t : Int)
    (st' : LoggingState) (fs' : FS) (nm : String) (lgNew : PyLogger)
    (hc : create_rotating_logger st fs name file level whenA intv bc co lt t =
      (st', fs', .ok nm))
    (hNew : lookupLogger st' name = some lgNew) :
    lgNew.handlers.length = (if co then 2 else 1) ∧
    lgNew.handlers = (if co then [st.nextId, st.nextId + 1] else [st.nextId]) ∧
    (∃ fh, heapGet st' st.nextId = some (.fileH fh false)) ∧
    (co = true → heapGet st' (st.nextId + 1) = some (.streamH level false)) := by
  obtain ⟨-, hlook, ⟨fh, hheap, -, -, -, -⟩, hcons, -, -⟩ :=
    create_ok_spec st fs name file level whenA intv bc co lt t st' fs' nm hc
  rw [hNew] at hlook
  injection hlook with hlg
  subst hlg
  refine ⟨?_, rfl, ⟨fh, hheap⟩, hcons⟩
  cases co <;> simp

/-- Witness for C9 at the concrete "c9" sink (console enabled). -/
theorem c9_handler_count_invariant_witness :
    ({ level := 20, handlers := [0, 1] } : PyLogger).handlers.length =
      (if (true : Bool) then 2 else 1) := by
  obtain ⟨hlen, -, -, -⟩ :=
    c9_handler_count_invariant emptyState [] "c9" "c9.log" 20 "midnight" 1 7 true
      demoLT 0 c9Created.1 c9Created.2.1 "c9" { level := 20, handlers := [0, 1] }
      (by decide) (by decide)
  exact hlen

/-- Claim C10: reconfiguring a name removes the prior handlers from the
logger's list but mutates no existing handler object: every old heap entry
is exactly as before (so an open file handler stays open, nothing is closed
or flushed). -/
theorem c10_old_handlers_not_closed
    (st : LoggingState) (fs : FS) (name file : String) (level : Int) (whenA : String)
    (intv bc : Int) (co : Bool) (lt : Int → TimeTuple) (t : Int)
    (st' : LoggingState) (fs' : FS) (r : Except String String) (lgOld : PyLogger)
    (hOld : lookupLogger st name = some lgOld)
    (hIds : ∀ i ∈ lgOld.handlers, i < st.nextId)
    (hc : create_rotating_logger st fs name file level whenA intv bc co lt t =
      (st', fs', r)) :
    (∀ i ∈ lgOld.handlers, heapGet st' i = heapGet st i) ∧
    (∀ i ∈ lgOld.handlers, ∀ fh cl, heapGet st i = some (.fileH fh cl) →
        heapGet st' i = some (.fileH fh cl)) ∧
    (∀ nm, r = .ok nm → ∀ lgNew, lookupLogger st' name = some lgNew →
        ∀ i ∈ lgOld.handlers, i ∉ lgNew.handlers) := by
  have hframe : ∀ i ∈ lgOld.handlers, heapGet st' i = heapGet st i := by
    cases r with
    | ok nm =>
        obtain ⟨-, -, -, -, hfr, -⟩ :=
          create_ok_spec st fs name file level whenA intv bc co lt t st' fs' nm hc
        exact fun i hi => hfr i (hIds i hi)
    | error e =>
        obtain ⟨hheap, -, -⟩ :=
          create_err_spec st fs name file level whenA intv bc co lt t st' fs' e hc
        intro i _
        unfold heapGet
        rw [hheap]
  refine ⟨hframe, ?_, ?_⟩
  · intro i hi fh cl hget
    rw [hframe i hi]
    exact hget
  · intro nm hr lgNew hNew i hi
    subst hr
    obtain ⟨-, hlook, -, -, -, -⟩ :=
      create_ok_spec st fs name file level whenA intv bc co lt t st' fs' nm hc
    rw [hNew] at hlook
    injection hlook with hlg
    subst hlg
    have hilt : i < st.nextId := hIds i hi
    cases co <;> simp <;> omega

/-- Witness for C10: after reconstructing "c3", the handler object 0 from
the first construction is untouched in the heap. -/
theorem c10_old_handlers_not_closed_witness :
    heapGet c3Created2.1 0 = heapGet c3Created1.1 0 := by
  obtain ⟨hframe, -, -⟩ :=
    c10_old_handlers_not_closed c3Created1.1 c3Created1.2.1 "c3" "c3.log" 10 "H" 2 3
      false demoLT 50 c3Created2.1 c3Created2.2.1 (Except.ok "c3")
      { level := 20, handlers := [0, 1] } (by decide) (by decide) (by decide)
  exact hframe 0 (by decide)

/-! ## Order of formatted timestamps (claim C4) -/

theorem pad_length (w n : Nat) : (pad w n).length = w := by
  induction w generalizing n with
  | zero => rfl
  | succ w ih => simp [pad, ih]

theorem digitChar_lt_iff : ∀ a < 10, ∀ b < 10,
    (Nat.digitChar a < Nat.digitChar b ↔ a < b) := by decide

theorem strLt_irrefl (l : List Char) : strLtChars l l = false := by
  induction l with
  | nil => rfl
  | cons c rest ih => simp [strLtChars, lt_irrefl, ih]

theorem strLt_cons (c d : Char) (x y : List Char) :
    strLtChars (c :: x) (d :: y) =
      if c < d then true else if d < c then false else strLtChars x y := rfl

theorem strLt_cons_same (c : Char) (x y : List Char) :
    strLtChars (c :: x) (c :: y) = strLtChars x y := by
  rw [strLt_cons, if_neg (lt_irrefl c), if_neg (lt_irrefl c)]

theorem mul_add_lt_mul_add {P a b r₁ r₂ : Nat} (h1 : r₁ < P) (hab : a < b) :
    P * a + r₁ < P * b + r₂ :=
  calc P * a + r₁ < P * a + P := by omega
    _ = P * (a + 1) := by ring
    _ ≤ P * b := Nat.mul_le_mul_left P hab
    _ ≤ P * b + r₂ := Nat.le_add_right _ _

theorem pad_lt_iff : ∀ (w m n : Nat), m < 10 ^ w → n < 10 ^ w →
    (strLtChars (pad w m) (pad w n) = true ↔ m < n) := by
  intro w
  induction w with
  | zero =>
      intro m n hm hn
      have hm0 : m = 0 := by simpa using hm
      have hn0 : n = 0 := by simpa using hn
      subst hm0
      subst hn0
      simp [pad, strLtChars]
  | succ w ih =>
      intro m n hm hn
      have hpow : 10 ^ (w + 1) = 10 ^ w * 10 := by ring
      have hd1 : m / 10 ^ w < 10 := Nat.div_lt_of_lt_mul (hpow ▸ hm)
      have hd2 : n / 10 ^ w < 10 := Nat.div_lt_of_lt_mul (hpow ▸ hn)
      have hppos : 0 < 10 ^ w := Nat.pos_pow_of_pos w (by omega)
      have hr1 : m % 10 ^ w < 10 ^ w := Nat.mod_lt _ hppos
      have hr2 : n % 10 ^ w < 10 ^ w := Nat.mod_lt _ hppos
      have e1 := Nat.div_add_mod m (10 ^ w)
      have e2 := Nat.div_add_mod n (10 ^ w)
      simp only [pad]
      rw [strLt_cons]
      rcases Nat.lt_trichotomy (m / 10 ^ w) (n / 10 ^ w) with hq | hq | hq
      · rw [if_pos ((digitChar_lt_iff _ hd1 _ hd2).mpr hq)]
        exact iff_of_true rfl (by
          rw [← e1, ← e2]
          exact mul_add_lt_mul_add hr1 hq)
      · rw [hq]
        rw [if_neg (lt_irrefl _), if_neg (lt_irrefl _)]
        rw [ih _ _ hr1 hr2]
        rw [hq] at e1
        omega
      · rw [if_neg (fun hlt => absurd ((digitChar_lt_iff _ hd1 _ hd2).mp hlt)
            (Nat.lt_asymm hq))]
        rw [if_pos ((digitChar_lt_iff _ hd2 _ hd1).mpr hq)]
        exact iff_of_false (by simp) (by
          intro hmn
          have : n < m := by
            rw [← e1, ← e2]
            exact mul_add_lt_mul_add hr2 hq
          omega)

theorem pad_inj (w m n : Nat) (hm : m < 10 ^ w) (hn : n < 10 ^ w)
    (h : pad w m = pad w n) : m = n := by
  rcases Nat.lt_trichotomy m n with hlt | he | hlt
  · have hx := (pad_lt_iff w m n hm hn).mpr hlt
    rw [h, strLt_irrefl] at hx
    cases hx
  · exact he
  · have hx := (pad_lt_iff w n m hn hm).mpr hlt
    rw [← h, strLt_irrefl] at hx
    cases hx

theorem strLt_append_eqlen : ∀ (a b x y : List Char), a.length = b.length →
    strLtChars (a ++ x) (b ++ y) =
      (if a = b then strLtChars x y else strLtChars a b) := by
  intro a
  induction a with
  | nil =>
      intro b x y hlen
      cases b with
      | nil => simp
      | cons d bs => simp at hlen
  | cons c as ih =>
      intro b x y hlen
      cases b with
      | nil => simp at hlen
      | cons d bs =>
          simp only [List.cons_append]
          rcases lt_trichotomy c d with hcd | hcd | hcd
          · have hne : (c :: as) ≠ (d :: bs) := by
              intro he
              injection he with h1 _
              exact absurd h1 (ne_of_lt hcd)
            rw [if_neg hne, strLt_cons, strLt_cons, if_pos hcd, if_pos hcd]
          · subst hcd
            rw [strLt_cons_same, strLt_cons_same]
            rw [ih bs x y (by simpa using hlen)]
            by_cases hasbs : as = bs
            · rw [if_pos hasbs, if_pos (by rw [hasbs])]
            · rw [if_neg hasbs, if_neg (by
                intro he
                injection he with _ h2
                exact hasbs h2)]
          · have hne : (c :: as) ≠ (d :: bs) := by
              intro he
              injection he with h1 _
              exact absurd h1 (ne_of_gt hcd)
            have hnc : ¬ c < d := not_lt_of_gt hcd
            rw [if_neg hne, strLt_cons, strLt_cons, if_neg hnc, if_neg hnc,
              if_pos hcd, if_pos hcd]

theorem pad_append_lt_iff (w m n : Nat) (x y : List Char)
    (hm : m < 10 ^ w) (hn : n < 10 ^ w) :
    (strLtChars (pad w m ++ x) (pad w n ++ y) = true) ↔
      (m < n ∨ (m = n ∧ strLtChars x y = true)) := by
  rw [strLt_append_eqlen _ _ _ _ (by rw [pad_length, pad_length])]
  by_cases he : pad w m = pad w n
  · have hmn : m = n := pad_inj w m n hm hn he
    subst hmn
    rw [if_pos he]
    simp [lt_irrefl]
  · rw [if_neg he]
    have hne : m ≠ n := fun hmn => he (by rw [hmn])
    rw [pad_lt_iff w m n hm hn]
    constructor
    · exact fun h => Or.inl h
    · rintro (h | ⟨h, _⟩)
      · exact h
      · exact absurd h hne

theorem tsString_data (t : TimeTuple) :
    (tsString t).data =
      pad 4 t.year ++ '-' :: (pad 2 t.month ++ '-' :: (pad 2 t.mday ++ '_' ::
        (pad 2 t.hour ++ '-' :: (pad 2 t.minute ++ '-' :: (pad 2 t.second ++ []))))) := rfl

/-- Formatted timestamps compare lexicographically exactly as the
broken-down times compare chronologically. -/
theorem tsString_lt_iff (t1 t2 : TimeTuple) (h1 : validTT t1) (h2 : validTT t2) :
    (pyStrLt (tsString t1) (tsString t2) = true) ↔ chronLt t1 t2 := by
  obtain ⟨-, hy1, hmo1, hd1, hh1, hmi1, hs1⟩ := h1
  obtain ⟨-, hy2, hmo2, hd2, hh2, hmi2, hs2⟩ := h2
  have hy1' : t1.year < 10 ^ 4 := by norm_num; omega
  have hy2' : t2.year < 10 ^ 4 := by norm_num; omega
  have p2 : (10 : Nat) ^ 2 = 100 := by norm_num
  unfold pyStrLt
  rw [tsString_data, tsString_data]
  rw [pad_append_lt_iff 4 t1.year t2.year _ _ hy1' hy2', strLt_cons_same]
  rw [pad_append_lt_iff 2 t1.month t2.month _ _ (p2 ▸ hmo1) (p2 ▸ hmo2), strLt_cons_same]
  rw [pad_append_lt_iff 2 t1.mday t2.mday _ _ (p2 ▸ hd1) (p2 ▸ hd2), strLt_cons_same]
  rw [pad_append_lt_iff 2 t1.hour t2.hour _ _ (p2 ▸ hh1) (p2 ▸ hh2), strLt_cons_same]
  rw [pad_append_lt_iff 2 t1.minute t2.minute _ _ (p2 ▸ hmi1) (p2 ▸ hmi2), strLt_cons_same]
  rw [pad_append_lt_iff 2 t1.second t2.second _ _ (p2 ▸ hs1) (p2 ▸ hs2)]
  unfold chronLt
  simp [strLtChars]

/-- Claim C4: every archive a configured sink produces is named
base_filename.YYYY-MM-DD_HH-MM-SS (the overridden suffix, zero-padded and
fixed-width), and both the bare timestamps and the full archive names for a
common base sort lexicographically exactly in chronological order. -/
theorem c4_archive_names_sort_chronologically :
    (∀ (st : LoggingState) (fs : FS) (name file : String) (level : Int) (whenA : String)
        (intv bc : Int) (co : Bool) (lt : Int → TimeTuple) (t : Int)
        (st' : LoggingState) (fs' : FS) (nm : String),
      create_rotating_logger st fs name file level whenA intv bc co lt t =
        (st', fs', .ok nm) →
      ∀ fh, createdFileHandler st' name = some fh →
        fh.suffix = "%Y-%m-%d_%H-%M-%S" ∧
        ∀ (lt2 : Int → TimeTuple) (now : Int),
          rolloverArchiveName fh lt2 now =
            fh.baseFilename ++ "." ++ tsString (rolloverTuple fh lt2 now)) ∧
    (∀ t1 t2 : TimeTuple, validTT t1 → validTT t2 →
      (pyStrLt (tsString t1) (tsString t2) = true ↔ chronLt t1 t2)) ∧
    (∀ (base : String) (t1 t2 : TimeTuple), validTT t1 → validTT t2 →
      (pyStrLt (base ++ "." ++ tsString t1) (base ++ "." ++ tsString t2) = true ↔
        chronLt t1 t2)) := by
  refine ⟨?_, tsString_lt_iff, ?_⟩
  · intro st fs name file level whenA intv bc co lt t st' fs' nm hc fh hcf
    obtain ⟨-, -, hsuf, -⟩ :=
      createdFileHandler_of_create st fs name file level whenA intv bc co lt t st' fs' nm
        hc fh hcf
    refine ⟨hsuf, ?_⟩
    intro lt2 now
    unfold rolloverArchiveName tsString
    rw [hsuf]
  · intro base t1 t2 h1 h2
    unfold pyStrLt
    simp only [String.data_append]
    rw [strLt_append_eqlen _ _ _ _ rfl, if_pos rfl]
    exact tsString_lt_iff t1 t2 h1 h2

/-- Witness for C4 at two concrete rollover instants. -/
theorem c4_archive_names_sort_chronologically_witness :
    pyStrLt ("application.log" ++ "." ++
        tsString { year := 2025, month := 1, mday := 1, hour := 0, minute := 0,
                   second := 0, wday := 2, isdst := false })
      ("application.log" ++ "." ++
        tsString { year := 2025, month := 1, mday := 2, hour := 0, minute := 0,
                   second := 0, wday := 3, isdst := false }) = true :=
  (c4_archive_names_sort_chronologically.2.2 "application.log"
    { year := 2025, month := 1, mday := 1, hour := 0, minute := 0, second := 0,
      wday := 2, isdst := false }
    { year := 2025, month := 1, mday := 2, hour := 0, minute := 0, second := 0,
      wday := 3, isdst := false }
    (by decide) (by decide)).mpr (by decide)

end LoggingRotation
